import Mathlib

/-!
Shallow embedding of the swf-fastmon-agent ingestion pipeline.

The repository contains two revisions of the same utility module:
  * src/src/swf_fastmon_agent/fastmon_utils.py          (REST-backed, namespace Rest below)
  * src/src/swf_fastmon_agent/agents/fastmon_utils.py   (Django-ORM backed, namespace Agents below)
Pure helpers (URL construction, run-number extraction, checksumming,
sampling arithmetic, configuration validation, scanning, subsample
simulation) are translated directly; stateful persistence is modelled by
explicit state passing over a small database value, and the external
collaborators (REST monitor API, Django ORM, message bus, filesystem,
random source) are modelled as explicit parameters/oracles.
-/

set_option maxRecDepth 20000

namespace FastMon

/-! # String helpers for construct_file_url -/

/-- Python base_url.rstrip of the slash character: drop every trailing slash. -/
def rstripSlash (s : List Char) : List Char :=
  (s.reverse.dropWhile (fun c => c = '/')).reverse

/-- The agents revision instead drops exactly one trailing slash:
if base_url.endswith slash then base_url = base_url[:-1]. -/
def dropOneSlash (s : List Char) : List Char :=
  match s.reverse with
  | '/' :: t => t.reverse
  | _ => s

/-- Number of trailing slash characters of a string. -/
def trailingSlashes (s : List Char) : Nat :=
  (s.reverse.takeWhile (fun c => c = '/')).length

namespace Rest

/-- construct_file_url of fastmon_utils.py (lines 217-232): strips all
trailing slashes from base_url and joins base_url, a slash, and the
resolved absolute path. -/
def construct_file_url (abs_path : String) (base_url : String) : String :=
  String.mk (rstripSlash base_url.toList ++ '/' :: abs_path.toList)

end Rest

namespace Agents

/-- construct_file_url of agents/fastmon_utils.py (lines 193-209): strips
at most one trailing slash from base_url and concatenates the resolved
absolute path directly. -/
def construct_file_url (abs_path : String) (base_url : String) : String :=
  String.mk (dropOneSlash base_url.toList ++ abs_path.toList)

end Agents

/-! # extract_run_number (fastmon_utils.py lines 129-157)

The three regular expressions run_(\d+), run(\d+), r(\d+) are each a
case-insensitive literal followed by one or more decimal digits, captured
greedily; re.search finds the leftmost position where literal-plus-digit
matches.  The patterns are tried in order and the first matching pattern
wins. -/

/-- Match a lowercase literal against the head of a string, comparing the
string case-insensitively; on success return the remaining suffix. -/
def matchLit : List Char → List Char → Option (List Char)
  | [], rest => some rest
  | _, [] => none
  | l :: ls, c :: cs => if c.toLower = l then matchLit ls cs else none

/-- Attempt to match literal-plus-one-or-more-digits at the current
position; on success return the (greedy) digit group. -/
def matchHere (lit : List Char) (s : List Char) : Option (List Char) :=
  match matchLit lit s with
  | none => none
  | some rest =>
      let ds := rest.takeWhile Char.isDigit
      if ds.isEmpty then none else some ds

/-- re.search: scan positions left to right, returning the digit group of
the leftmost match of literal-plus-digits. -/
def searchPat (lit : List Char) : List Char → Option (List Char)
  | [] => none
  | c :: cs =>
      match matchHere lit (c :: cs) with
      | some ds => some ds
      | none => searchPat lit cs

/-- int() of a digit group. -/
def digitsToNat (ds : List Char) : Nat :=
  ds.foldl (fun a c => a * 10 + (c.toNat - 48)) 0

/-- The ordered pattern list of extract_run_number, each as the lowercase
literal that precedes the digit group. -/
def runPats : List (List Char) :=
  [['r', 'u', 'n', '_'], ['r', 'u', 'n'], ['r']]

/-- First pattern (in priority order) that matches anywhere in the
filename wins. -/
def firstPatMatch : List (List Char) → List Char → Option Nat
  | [], _ => none
  | p :: ps, cs =>
      match searchPat p cs with
      | some ds => some (digitsToNat ds)
      | none => firstPatMatch ps cs

/-- extract_run_number of fastmon_utils.py lines 129-157 (identical in
agents/fastmon_utils.py lines 115-143). -/
def extract_run_number (filename : String) (default_run_number : Nat) : Nat :=
  match firstPatMatch runPats filename.toList with
  | some n => n
  | none => default_run_number

/-! # MD5 and calculate_checksum (fastmon_utils.py lines 160-179)

calculate_checksum opens the file, feeds it to hashlib.md5 in 4096-byte
chunks, and returns the hex digest; any exception (an unreadable file)
is caught and yields the empty string.  hashlib is an external library;
its update/hexdigest contract is that successive updates hash the
concatenation of all bytes fed, so the streamed digest is the MD5 of the
whole content.  MD5 itself is implemented below from its standard
definition, on bytes represented as Nat values below 256, with 32-bit
words as Nat reduced modulo 2^32. -/

def mask32 (x : Nat) : Nat := x % 4294967296

def rotl32 (x n : Nat) : Nat :=
  mask32 ((x <<< n) ||| (x >>> (32 - n)))

/-- The 64 MD5 sine-derived constants. -/
def md5KTable : List Nat :=
  [0xd76aa478, 0xe8c7b756, 0x242070db, 0xc1bdceee,
   0xf57c0faf, 0x4787c62a, 0xa8304613, 0xfd469501,
   0x698098d8, 0x8b44f7af, 0xffff5bb1, 0x895cd7be,
   0x6b901122, 0xfd987193, 0xa679438e, 0x49b40821,
   0xf61e2562, 0xc040b340, 0x265e5a51, 0xe9b6c7aa,
   0xd62f105d, 0x02441453, 0xd8a1e681, 0xe7d3fbc8,
   0x21e1cde6, 0xc33707d6, 0xf4d50d87, 0x455a14ed,
   0xa9e3e905, 0xfcefa3f8, 0x676f02d9, 0x8d2a4c8a,
   0xfffa3942, 0x8771f681, 0x6d9d6122, 0xfde5380c,
   0xa4beea44, 0x4bdecfa9, 0xf6bb4b60, 0xbebfbc70,
   0x289b7ec6, 0xeaa127fa, 0xd4ef3085, 0x04881d05,
   0xd9d4d039, 0xe6db99e5, 0x1fa27cf8, 0xc4ac5665,
   0xf4292244, 0x432aff97, 0xab9423a7, 0xfc93a039,
   0x655b59c3, 0x8f0ccc92, 0xffeff47d, 0x85845dd1,
   0x6fa87e4f, 0xfe2ce6e0, 0xa3014314, 0x4e0811a1,
   0xf7537e82, 0xbd3af235, 0x2ad7d2bb, 0xeb86d391]

/-- The 64 MD5 per-round left-rotation amounts. -/
def md5STable : List Nat :=
  [7, 12, 17, 22, 7, 12, 17, 22, 7, 12, 17, 22, 7, 12, 17, 22,
   5, 9, 14, 20, 5, 9, 14, 20, 5, 9, 14, 20, 5, 9, 14, 20,
   4, 11, 16, 23, 4, 11, 16, 23, 4, 11, 16, 23, 4, 11, 16, 23,
   6, 10, 15, 21, 6, 10, 15, 21, 6, 10, 15, 21, 6, 10, 15, 21]

def md5K (i : Nat) : Nat := md5KTable.getD i 0

def md5S (i : Nat) : Nat := md5STable.getD i 0

/-- Group a byte list into little-endian 32-bit words. -/
def leWords : List Nat → List Nat
  | b0 :: b1 :: b2 :: b3 :: rest =>
      (b0 + 256 * b1 + 65536 * b2 + 16777216 * b3) :: leWords rest
  | _ => []

/-- A Nat as n little-endian bytes. -/
def leBytes : Nat → Nat → List Nat
  | 0, _ => []
  | n + 1, x => x % 256 :: leBytes n (x / 256)

/-- MD5 padding: a 0x80 byte, zeros to 56 mod 64, then the 64-bit
little-endian bit length. -/
def md5Pad (msg : List Nat) : List Nat :=
  let len := msg.length
  let zeros := (120 - (len + 1) % 64) % 64
  msg ++ 128 :: List.replicate zeros 0 ++ leBytes 8 (8 * len)

/-- MD5 working state: the four 32-bit registers. -/
structure Md5State where
  a : Nat
  b : Nat
  c : Nat
  d : Nat
deriving DecidableEq

/-- One of the 64 MD5 steps. -/
def md5Round (M : Nat → Nat) (st : Md5State) (i : Nat) : Md5State :=
  let f :=
    if i < 16 then (st.b &&& st.c) ||| ((st.b ^^^ 4294967295) &&& st.d)
    else if i < 32 then (st.d &&& st.b) ||| ((st.d ^^^ 4294967295) &&& st.c)
    else if i < 48 then st.b ^^^ st.c ^^^ st.d
    else st.c ^^^ (st.b ||| (st.d ^^^ 4294967295))
  let g :=
    if i < 16 then i
    else if i < 32 then (5 * i + 1) % 16
    else if i < 48 then (3 * i + 5) % 16
    else (7 * i) % 16
  let nb := mask32 (st.b + rotl32 (mask32 (st.a + f + md5K i + M g)) (md5S i))
  ⟨st.d, nb, st.b, st.c⟩

/-- Process one 64-byte chunk. -/
def md5Chunk (st : Md5State) (chunk : List Nat) : Md5State :=
  let M := fun g => (leWords chunk).getD g 0
  let r := (List.range 64).foldl (md5Round M) st
  ⟨mask32 (st.a + r.a), mask32 (st.b + r.b), mask32 (st.c + r.c), mask32 (st.d + r.d)⟩

/-- Chunk splitting, structurally recursive in a fuel argument so that it
reduces inside the kernel; each chunk holds n+1 elements (the chunk size
is positive so the split always advances), and the fuel branch that
returns the remainder whole is never reached when the fuel is at least
the list length. -/
def chunksGo (n : Nat) : Nat → List α → List (List α)
  | _, [] => []
  | 0, x :: xs => [x :: xs]
  | fuel + 1, x :: xs => (x :: xs).take (n + 1) :: chunksGo n fuel ((x :: xs).drop (n + 1))

/-- Split a list into chunks of n+1 elements (the last one possibly
shorter). -/
def chunksOfAux (n : Nat) (l : List α) : List (List α) := chunksGo n l.length l

/-- The 64-byte chunking of the MD5 compression loop. -/
def chunks64 (l : List Nat) : List (List Nat) := chunksOfAux 63 l

/-- The 4096-byte read chunks of calculate_checksum. -/
def chunks4096 (l : List Nat) : List (List Nat) := chunksOfAux 4095 l

def md5Init : Md5State := ⟨0x67452301, 0xefcdab89, 0x98badcfe, 0x10325476⟩

def md5Final (msg : List Nat) : Md5State :=
  (chunks64 (md5Pad msg)).foldl md5Chunk md5Init

def hexDigit (n : Nat) : Char :=
  if n < 10 then Char.ofNat (48 + n) else Char.ofNat (87 + n)

def byteHex (b : Nat) : List Char := [hexDigit (b / 16), hexDigit (b % 16)]

/-- hexdigest: the four registers, little-endian byte order, in hex. -/
def md5Hex (msg : List Nat) : String :=
  let st := md5Final msg
  String.mk
    (((leBytes 4 st.a ++ leBytes 4 st.b ++ leBytes 4 st.c ++ leBytes 4 st.d).map byteHex).flatten)

/-- calculate_checksum of fastmon_utils.py lines 160-179 (identical in
agents/fastmon_utils.py lines 146-165).  The file is modelled as
Option (byte list): none is an unreadable file whose open/read raises,
caught by the except branch which returns the empty string.  A readable
file is read in 4096-byte chunks, each fed to the incremental hash, whose
digest is the MD5 of the concatenation of everything fed. -/
def calculate_checksum : Option (List Nat) → String
  | none => ""
  | some content => md5Hex (chunks4096 content).flatten

/-! # select_files (fastmon_utils.py lines 103-126)

random.sample(files, k) draws k distinct positions of the input list
uniformly without replacement and returns the elements at those
positions in draw order.  The random source is modelled by the drawn
index list itself; a draw is valid when its indices are distinct, in
range, and exactly k of them (random.sample raises otherwise, which it
never does for 0 <= k <= len(files)).  Fractions are modelled as
rationals; int() of the nonnegative product is the floor. -/

/-- selection_count = max(1, int(len(files) * selection_fraction)). -/
def selection_count (n : Nat) (f : ℚ) : Nat :=
  max 1 (Int.toNat ⌊(n : ℚ) * f⌋)

/-- The elements of files at the drawn positions. -/
def sampleAt (files : List α) (idx : List Nat) : List α :=
  idx.filterMap (fun i => files.get? i)

/-- A valid model of random.sample over a population of n elements: asked
for k <= n elements it draws k distinct in-range positions. -/
def ValidSampler (n : Nat) (sample : Nat → List Nat) : Prop :=
  ∀ k, k ≤ n →
    (sample k).Nodup ∧ (sample k).length = k ∧ ∀ i ∈ sample k, i < n

/-- select_files of fastmon_utils.py lines 103-126 (identical in
agents/main.py _select_files lines 121-140): empty input short-circuits
to the empty list, otherwise random.sample picks
min(selection_count, len files) elements without replacement. -/
def select_files (files : List α) (selection_fraction : ℚ)
    (sample : Nat → List Nat) : List α :=
  if files.isEmpty then []
  else
    sampleAt files
      (sample (min (selection_count files.length selection_fraction) files.length))

/-! # validate_config (fastmon_utils.py lines 42-58)

A configuration dictionary is modelled as an association list from key
to a value; validate_config only ever inspects key presence and the
numeric value under selection_fraction, so values are modelled as either
a rational number or an opaque non-numeric value (for which the Python
chained comparison would raise a TypeError, i.e. also fail). -/

inductive ConfigVal where
  | num (q : ℚ)
  | other
deriving DecidableEq

abbrev Config := List (String × ConfigVal)

def required_keys : List String :=
  ["watch_directories", "file_patterns", "check_interval",
   "lookback_time", "selection_fraction", "default_run_number"]

def hasKey (c : Config) (k : String) : Bool :=
  (c.lookup k).isSome

/-- The for-loop over required_keys: the first missing key raises. -/
def checkRequired (c : Config) : List String → Except String Unit
  | [] => Except.ok ()
  | k :: ks =>
      if hasKey c k then checkRequired c ks
      else Except.error ("Missing required configuration key: " ++ k)

/-- The guard 0.0 <= config of selection_fraction <= 1.0; a non-numeric
value makes the Python comparison raise, which is also a failure. -/
def fractionOk (c : Config) : Bool :=
  match c.lookup "selection_fraction" with
  | some (ConfigVal.num q) => decide (0 ≤ q) && decide (q ≤ 1)
  | _ => false

/-- validate_config of fastmon_utils.py lines 42-58 (identical in
agents/fastmon_utils.py lines 37-49 and agents/main.py _validate_config):
ok () models a return without raising, error models a raised ValueError. -/
def validate_config (c : Config) : Except String Unit :=
  match checkRequired c required_keys with
  | Except.error e => Except.error e
  | Except.ok _ =>
      if fractionOk c then Except.ok ()
      else Except.error "selection_fraction must be between 0.0 and 1.0"

/-! # find_recent_files (fastmon_utils.py lines 61-100)

The filesystem is modelled as the list of watch directories, each with
an existence flag and a listing; dir_path.glob is modelled by a match
oracle on file names, and st_ctime by a rational timestamp carried on
each entry.  The lookback configuration value is an Option; Python
truthiness makes both None and 0 disable the cutoff. -/

structure FsEntry where
  name : String
  is_file : Bool
  ctime : ℚ
deriving DecidableEq

structure WatchDir where
  dirExists : Bool
  entries : List FsEntry
deriving DecidableEq

/-- cutoff_timestamp: None unless lookback_time is truthy, in which case
now minus lookback_time minutes. -/
def cutoffOf (lookback_time : Option ℚ) (now : ℚ) : Option ℚ :=
  match lookback_time with
  | none => none
  | some m => if m = 0 then none else some (now - m * 60)

/-- The skip test: cutoff_timestamp truthy and st_ctime < cutoff_timestamp. -/
def skipByAge (cutoff : Option ℚ) (ctime : ℚ) : Bool :=
  match cutoff with
  | none => false
  | some t => decide (¬t = 0) && decide (ctime < t)

/-- The per-directory scan: skipped entirely when the directory does not
exist, otherwise every pattern is globbed in turn and regular files
passing the age test are collected. -/
def scanDir (globMatch : String → String → Bool) (patterns : List String)
    (cutoff : Option ℚ) (d : WatchDir) : List FsEntry :=
  if d.dirExists then
    patterns.flatMap (fun p =>
      d.entries.filter (fun e =>
        globMatch p e.name && e.is_file && !skipByAge cutoff e.ctime))
  else []

/-- find_recent_files of fastmon_utils.py lines 61-100 (the agents/main.py
revision differs only in its age test and in requiring lookback_time). -/
def find_recent_files (globMatch : String → String → Bool) (patterns : List String)
    (dirs : List WatchDir) (lookback_time : Option ℚ) (now : ℚ) : List FsEntry :=
  (dirs.map (scanDir globMatch patterns (cutoffOf lookback_time now))).flatten

/-! # Persistence model and record_file

The monitor database reached through the REST API (fastmon_utils.py) or
the Django ORM (agents/fastmon_utils.py) is modelled as an explicit
value holding the runs and stf_files tables plus a fresh-id counter;
querying by url or run_number filters the table, creation appends a row.
Timestamps and the free-form metadata dictionary are omitted: no claim
mentions them and they do not influence any branch. -/

structure RunRec where
  run_id : Nat
  run_number : Nat
deriving DecidableEq

structure StfRec where
  file_id : Nat
  run : Nat
  stf_filename : String
  file_url : String
  file_size_bytes : Nat
  checksum : String
  status : String
deriving DecidableEq

structure Db where
  runs : List RunRec
  stf_files : List StfRec
  next_id : Nat
deriving DecidableEq

/-- What record_file reads off a file path: its name, resolved absolute
path, stat size and (for the checksum) its readable content. -/
structure FileInfo where
  name : String
  abs_path : String
  size : Nat
  content : Option (List Nat)
deriving DecidableEq

/-- The configuration slice record_file consumes. -/
structure RegConfig where
  base_url : String
  default_run_number : Nat
  calculate_checksum : Bool
deriving DecidableEq

namespace Rest

/-- get_or_create_run of fastmon_utils.py lines 182-214: GET
/runs/?run_number=n, return the first result if any, otherwise POST a
new run. -/
def get_or_create_run (run_number : Nat) (db : Db) : Db × RunRec :=
  match (db.runs.filter (fun r => r.run_number == run_number)).head? with
  | some r => (db, r)
  | none =>
      let r : RunRec := ⟨db.next_id, run_number⟩
      (⟨db.runs ++ [r], db.stf_files, db.next_id + 1⟩, r)

/-- record_file of fastmon_utils.py lines 235-295: construct the url,
return the first already-recorded row for it if one exists, otherwise
stat the file, resolve the run, optionally checksum, and POST a new
record with status REGISTERED. -/
def record_file (fi : FileInfo) (cfg : RegConfig) (db : Db) : Db × StfRec :=
  let file_url := Rest.construct_file_url fi.abs_path cfg.base_url
  match (db.stf_files.filter (fun s => s.file_url == file_url)).head? with
  | some existing => (db, existing)
  | none =>
      let run_number := extract_run_number fi.name cfg.default_run_number
      let p := get_or_create_run run_number db
      let checksum :=
        if cfg.calculate_checksum then calculate_checksum fi.content else ""
      let srec : StfRec :=
        ⟨p.1.next_id, p.2.run_id, fi.name, file_url, fi.size, checksum, "REGISTERED"⟩
      (⟨p.1.runs, p.1.stf_files ++ [srec], p.1.next_id + 1⟩, srec)

end Rest

namespace Agents

/-- The Django StfFile row (database/models.py): unlike the REST payload
it has no stf_filename column. -/
structure StfRow where
  file_id : Nat
  run : Nat
  file_url : String
  file_size_bytes : Nat
  checksum : String
  status : String
deriving DecidableEq

structure Db where
  runs : List RunRec
  stf_files : List StfRow
  next_id : Nat
deriving DecidableEq

/-- Run.objects.get_or_create of agents/fastmon_utils.py lines 168-190. -/
def get_or_create_run (run_number : Nat) (db : Db) : Db × RunRec :=
  match (db.runs.filter (fun r => r.run_number == run_number)).head? with
  | some r => (db, r)
  | none =>
      let r : RunRec := ⟨db.next_id, run_number⟩
      (⟨db.runs ++ [r], db.stf_files, db.next_id + 1⟩, r)

/-- record_file of agents/fastmon_utils.py lines 212-259 (the agents/main.py
_record_file method is the same code): if a row with the url exists the
function returns early, otherwise it creates the row; either way the
Python function returns None, so the model returns only the state. -/
def record_file (fi : FileInfo) (cfg : RegConfig) (db : Db) : Db :=
  let file_url := Agents.construct_file_url fi.abs_path cfg.base_url
  if (db.stf_files.filter (fun s => s.file_url == file_url)).isEmpty then
    let run_number := extract_run_number fi.name cfg.default_run_number
    let p := get_or_create_run run_number db
    let checksum :=
      if cfg.calculate_checksum then calculate_checksum fi.content else ""
    let srow : StfRow :=
      ⟨p.1.next_id, p.2.run_id, file_url, fi.size, checksum, "registered"⟩
    ⟨p.1.runs, p.1.stf_files ++ [srow], p.1.next_id + 1⟩
  else db

end Agents

/-! # simulate_tf_subsamples (fastmon_utils.py lines 298-351)

The per-child random.uniform(0.8, 1.2) draws are modelled by a jitter
function giving the i-th draw as a rational; Python int() truncates the
(here nonnegative) float product toward zero, modelled by truncating
rational division. -/

/-- Python int() on a rational: the numerator divided by the denominator
with Int.tdiv, which truncates toward zero. -/
def pyInt (q : ℚ) : Int := Int.tdiv q.num (q.den : Int)

structure TfMeta where
  tf_filename : String
  file_size_bytes : Int
  sequence_number : Nat
  stf_parent : Nat
deriving DecidableEq

/-- The Python format specifier 03d: decimal digits zero-padded to width
at least three. -/
def pad3 (n : Nat) : String :=
  let s := toString n
  if s.length < 3 then String.mk (List.replicate (3 - s.length) '0') ++ s else s

/-- simulate_tf_subsamples of fastmon_utils.py lines 298-351: stf_size is
the parent record file_size_bytes (defaulted to 0), base_filename the
path stem, and the three tf_* parameters the configuration values
(defaults 7, 0.15, 1). -/
def simulate_tf_subsamples (stf_size : Nat) (base_filename : String)
    (stf_parent : Nat) (tf_files_per_stf : Nat) (tf_size_fraction : ℚ)
    (tf_sequence_start : Nat) (jitter : Nat → ℚ) : List TfMeta :=
  (List.range tf_files_per_stf).map (fun i =>
    let sequence_number := tf_sequence_start + i
    ⟨base_filename ++ "_tf_" ++ pad3 sequence_number ++ ".tf",
     pyInt ((stf_size : ℚ) * tf_size_fraction * jitter i),
     sequence_number, stf_parent⟩)

/-! # record_tf_file, notification, and the per-child loop

record_tf_file (fastmon_utils.py lines 354-385) POSTs the child record
and catches every exception, returning None on failure.
send_tf_file_notification (main.py lines 122-140) builds the payload and
sends it, also catching every exception, so a publish failure never
raises out of the notification component.  The POST and the publish are
external collaborators, modelled as oracles that either succeed or fail.
The per-child loop is main.py lines 102-109. -/

structure TfFile where
  tf_file_id : Nat
  tf_filename : String
deriving DecidableEq

/-- record_tf_file of fastmon_utils.py lines 354-385: a failing POST is
caught and logged, yielding None. -/
def record_tf_file (post : TfMeta → Except String TfFile) (m : TfMeta) :
    Option TfFile :=
  match post m with
  | Except.ok tf => some tf
  | Except.error _ => none

/-- Modelled from the spec: the DispatchRecord audit row (spec sections 3
and 4.6).  The code under src only logs the outcome inside
send_tf_file_notification and _send_sse_message; the persistence of one
dispatch row per publish attempt (the MessageQueueDispatch table of
database/models.py) has no writer under src, so the recorded outcome is
taken from the spec's words. -/
structure DispatchRecord where
  record_id : Nat
  message_content : String
  is_successful : Bool
  error_message : String
deriving DecidableEq

/-- send_tf_file_notification of main.py lines 122-140 together with the
spec-modelled dispatch outcome: every branch, success or failure of the
publish collaborator, returns normally with the outcome recorded. -/
def send_tf_file_notification (publish : TfFile → Except String Unit)
    (tf : TfFile) : DispatchRecord :=
  match publish tf with
  | Except.ok _ => ⟨tf.tf_file_id, tf.tf_filename, true, ""⟩
  | Except.error e => ⟨tf.tf_file_id, tf.tf_filename, false, e⟩

/-- The per-child loop of main.py lines 102-109: every subsample is
appended to the registered list (None on a failed POST); a notification
is attempted exactly for the successfully recorded children, and its
outcome never stops the loop. -/
def process_tf_subsamples (post : TfMeta → Except String TfFile)
    (publish : TfFile → Except String Unit) (metas : List TfMeta) :
    List (Option TfFile) × List DispatchRecord :=
  metas.foldl
    (fun acc m =>
      match record_tf_file post m with
      | some tf => (acc.1 ++ [some tf], acc.2 ++ [send_tf_file_notification publish tf])
      | none => (acc.1 ++ [none], acc.2))
    ([], [])

/-! # The two scan-cycle loops (claim C7)

agents/main.py _process_files (lines 280-298) calls _record_file per
file, and _record_file catches every exception internally, so the
per-file action is total: it is modelled as an oracle returning the
post-state together with a flag recording whether its body raised
(partial effects before the raise persist; the except branch only logs).

main.py _emulate_stf_registration_and_sampling (lines 64-120) has no
per-file handler: record_stf_file (the record_file of fastmon_utils.py,
which re-raises on error) is called inside the single try of the whole
cycle, so a registration error abandons the remaining files and is
caught only at the cycle boundary, where it is reported as an ERROR
agent status.  The per-child work between registrations
(simulate_tf_subsamples, record_tf_file, send_tf_file_notification) is
total, so only the registration step can raise; it is modelled as an
oracle whose error carries the state at the moment of the raise. -/

namespace Agents

/-- The _record_file call as seen from _process_files: the internal try/except
makes it total, whatever the body did. -/
def record_file_step (act : φ → σ → σ × Bool) (f : φ) (db : σ) : σ :=
  (act f db).1

/-- The per-file loop of _process_files (agents/main.py lines 293-295). -/
def process_files (act : φ → σ → σ × Bool) (db : σ) (files : List φ) : σ :=
  files.foldl (fun db f => record_file_step act f db) db

end Agents

/-- The registration loop of _emulate_stf_registration_and_sampling
(main.py lines 93-111): a raise from the per-file registration
propagates, so the remaining files are not reached; the result carries
the final state, the caught error if any, and the ids registered in
order. -/
def mainCycleLoop (reg : φ → σ → Except (σ × String) (σ × Nat)) :
    σ → List φ → σ × Option String × List Nat
  | db, [] => (db, none, [])
  | db, f :: fs =>
      match reg f db with
      | Except.error (db1, e) => (db1, some e, [])
      | Except.ok (db1, n) =>
          let r := mainCycleLoop reg db1 fs
          (r.1, r.2.1, n :: r.2.2)

/-- The surrounding try of main.py lines 70-120: the loop error, if any,
is caught at the cycle boundary and turned into an ERROR agent status;
the cycle call itself returns normally. -/
def emulate_cycle (reg : φ → σ → Except (σ × String) (σ × Nat)) (db : σ)
    (files : List φ) : σ × String × List Nat :=
  let r := mainCycleLoop reg db files
  (r.1, match r.2.1 with | some _ => "ERROR" | none => "OK", r.2.2)

/-! # Helper lemmas -/

theorem chunksGo_flatten (n : Nat) (fuel : Nat) (l : List α) :
    (chunksGo n fuel l).flatten = l := by
  induction fuel generalizing l with
  | zero => match l with
    | [] => rfl
    | x :: xs => simp [chunksGo]
  | succ fuel ih => match l with
    | [] => rfl
    | x :: xs =>
        rw [chunksGo, List.flatten_cons, ih ((x :: xs).drop (n + 1)),
          List.take_append_drop]

theorem chunksOfAux_flatten (n : Nat) (l : List α) :
    (chunksOfAux n l).flatten = l :=
  chunksGo_flatten n l.length l

end FastMon

namespace FastMon

theorem sampleAt_length (files : List α) (idx : List Nat)
    (h : ∀ i ∈ idx, i < files.length) :
    (sampleAt files idx).length = idx.length := by
  induction idx with
  | nil => rfl
  | cons i idx ih =>
      have hi : i < files.length := h i (by simp)
      simp only [sampleAt, List.filterMap_cons, List.get?_eq_get hi,
        List.length_cons]
      rw [← ih (fun j hj => h j (by simp [hj]))]
      rfl

theorem sampleAt_subset (files : List α) (idx : List Nat) :
    ∀ x ∈ sampleAt files idx, x ∈ files := by
  intro x hx
  simp only [sampleAt, List.mem_filterMap] at hx
  obtain ⟨i, _, hget⟩ := hx
  exact List.get?_mem hget

theorem sampleAt_nodup (files : List α) (idx : List Nat)
    (hf : files.Nodup) (hidx : idx.Nodup) (h : ∀ i ∈ idx, i < files.length) :
    (sampleAt files idx).Nodup := by
  induction idx with
  | nil => exact List.nodup_nil
  | cons i idx ih =>
      have hi : i < files.length := h i (by simp)
      have hrest : (sampleAt files idx).Nodup :=
        ih (List.Nodup.of_cons hidx) (fun j hj => h j (by simp [hj]))
      simp only [sampleAt, List.filterMap_cons, List.get?_eq_get hi]
      refine List.nodup_cons.mpr ⟨?_, hrest⟩
      intro hmem
      simp only [sampleAt, List.mem_filterMap] at hmem
      obtain ⟨j, hj, hget⟩ := hmem
      have : i = j := by
        apply List.get?_inj hi hf
        rw [List.get?_eq_get hi, hget]
      exact (List.nodup_cons.mp hidx).1 (this ▸ hj)

theorem selection_count_le (n : Nat) (f : ℚ) (hn : 1 ≤ n) (hf1 : f ≤ 1) :
    selection_count n f ≤ n := by
  unfold selection_count
  apply max_le hn
  rw [Int.toNat_le]
  calc ⌊(n : ℚ) * f⌋ ≤ ⌊(n : ℚ)⌋ := by
        apply Int.floor_le_floor
        calc (n : ℚ) * f ≤ (n : ℚ) * 1 :=
              mul_le_mul_of_nonneg_left hf1 (by positivity)
          _ = (n : ℚ) := mul_one _
    _ = (n : Int) := Int.floor_natCast n

/-- C2: for a non-empty list of N candidates and a fraction f in [0,1],
select_files returns exactly max(1, floor(N times f)) elements drawn at
pairwise-distinct positions of the input (without replacement, the
meaning of no duplicates here: the result list itself repeats no
element whenever the candidate paths are distinct), a subset of the
input of at most N elements; for an empty candidate list it returns the
empty list, for every fraction whatsoever. -/
theorem select_files_spec (files : List α) (f : ℚ) (sample : Nat → List Nat)
    (hf0 : 0 ≤ f) (hf1 : f ≤ 1) (hs : ValidSampler files.length sample) :
    (files = [] → select_files files f sample = []) ∧
    (files ≠ [] →
      (select_files files f sample).length =
        max 1 (Int.toNat ⌊(files.length : ℚ) * f⌋)) ∧
    (∀ x ∈ select_files files f sample, x ∈ files) ∧
    (select_files files f sample).length ≤ files.length ∧
    (files.Nodup → (select_files files f sample).Nodup) ∧
    (∃ idx : List Nat, idx.Nodup ∧ (∀ i ∈ idx, i < files.length) ∧
      select_files files f sample = sampleAt files idx) ∧
    (∀ (g : ℚ) (sample2 : Nat → List Nat), select_files ([] : List α) g sample2 = []) := by
  by_cases hemp : files.isEmpty
  · have hnil : files = [] := by simpa using hemp
    subst hnil
    refine ⟨fun _ => by simp [select_files], fun h => absurd rfl h, ?_, ?_, ?_, ?_, ?_⟩
    · intro x hx; simpa [select_files] using hx
    · simp [select_files]
    · intro _; simp [select_files]
    · exact ⟨[], List.nodup_nil, by simp, by simp [select_files, sampleAt]⟩
    · intro g sample2; simp [select_files]
  · have hne : files ≠ [] := by simpa using hemp
    have hn1 : 1 ≤ files.length := List.length_pos.mpr hne
    have hkle : min (selection_count files.length f) files.length ≤ files.length :=
      min_le_right _ _
    obtain ⟨hnd, hlen, hlt⟩ := hs _ hkle
    have hsel : select_files files f sample =
        sampleAt files (sample (min (selection_count files.length f) files.length)) := by
      simp [select_files, hemp]
    have hmin : min (selection_count files.length f) files.length =
        selection_count files.length f :=
      min_eq_left (selection_count_le _ _ hn1 hf1)
    refine ⟨fun h => absurd h hne, fun _ => ?_, ?_, ?_, fun hf => ?_, ?_, ?_⟩
    · rw [hsel, sampleAt_length files _ hlt, hlen, hmin]; rfl
    · rw [hsel]; exact sampleAt_subset files _
    · rw [hsel, sampleAt_length files _ hlt, hlen]; exact hkle
    · rw [hsel]; exact sampleAt_nodup files _ hf hnd hlt
    · exact ⟨_, hnd, hlt, hsel⟩
    · intro g sample2; simp [select_files]

/-- Witness for C2: three candidates, fraction one half, and a sampler
drawing an initial segment of positions; exactly max(1, floor(3/2)) = 1
element is returned. -/
theorem select_files_spec_witness :
    (0 : ℚ) ≤ 1 / 2 ∧ (1 / 2 : ℚ) ≤ 1 ∧
    (select_files ([10, 20, 30] : List Nat) (1 / 2) (fun k => List.range k)).length =
      max 1 (Int.toNat ⌊(3 : ℚ) * (1 / 2)⌋) := by
  have hs : ValidSampler ([10, 20, 30] : List Nat).length (fun k => List.range k) :=
    fun k hk =>
      ⟨List.nodup_range k, List.length_range k,
        fun i hi => lt_of_lt_of_le (List.mem_range.mp hi) hk⟩
  refine ⟨by norm_num, by norm_num, ?_⟩
  have h := (select_files_spec ([10, 20, 30] : List Nat) (1 / 2) (fun k => List.range k)
    (by norm_num) (by norm_num) hs).2.1 (by decide)
  simpa using h

/-- C9: with no lookback window (lookback_time absent or 0, both falsy in
Python) the scanner applies no age filtering: an entry is returned
exactly when it is a regular file of an existing watch directory whose
name matches one of the patterns, whatever its creation time; and a
missing watch directory is skipped without affecting the scan of the
remaining directories (the function is total, so it never raises). -/
theorem find_recent_files_no_lookback
    (globMatch : String → String → Bool) (patterns : List String)
    (dirs : List WatchDir) (lookback : Option ℚ) (now : ℚ)
    (hlb : lookback = none ∨ lookback = some 0) :
    (∀ e : FsEntry,
      e ∈ find_recent_files globMatch patterns dirs lookback now ↔
        ∃ d ∈ dirs, d.dirExists = true ∧ e ∈ d.entries ∧ e.is_file = true ∧
          ∃ p ∈ patterns, globMatch p e.name = true) ∧
    (∀ (d : WatchDir) (rest : List WatchDir), d.dirExists = false →
      find_recent_files globMatch patterns (d :: rest) lookback now =
        find_recent_files globMatch patterns rest lookback now) := by
  have hcut : cutoffOf lookback now = none := by
    rcases hlb with h | h <;> simp [cutoffOf, h]
  constructor
  · intro e
    rw [find_recent_files, hcut]
    simp only [List.mem_flatten, List.mem_map]
    constructor
    · rintro ⟨l, ⟨d, hd, rfl⟩, hel⟩
      by_cases hex : d.dirExists
      · rw [scanDir, if_pos hex] at hel
        simp only [List.mem_flatMap, List.mem_filter, Bool.and_assoc,
          Bool.and_eq_true, Bool.not_eq_true'] at hel
        obtain ⟨p, hp, he, hm, hfile, _⟩ := hel
        exact ⟨d, hd, hex, he, hfile, p, hp, hm⟩
      · rw [scanDir, if_neg hex] at hel
        cases hel
    · rintro ⟨d, hd, hex, he, hfile, p, hp, hm⟩
      refine ⟨scanDir globMatch patterns none d, ⟨d, hd, rfl⟩, ?_⟩
      rw [scanDir, if_pos hex]
      simp only [List.mem_flatMap, List.mem_filter, Bool.and_assoc,
        Bool.and_eq_true, Bool.not_eq_true']
      exact ⟨p, hp, he, hm, hfile, by simp [skipByAge]⟩
  · intro d rest hd
    rw [find_recent_files, find_recent_files]
    simp [scanDir, hd]

/-- Witness for C9: no lookback window, one missing directory skipped and
one existing directory scanned. -/
theorem find_recent_files_no_lookback_witness :
    (∀ e : FsEntry,
      e ∈ find_recent_files (fun _ _ => true) ["anything"]
            [⟨false, [⟨"ghost.stf", true, 0⟩]⟩, ⟨true, [⟨"real.stf", true, 0⟩]⟩]
            none 0 ↔
        ∃ d ∈ [(⟨false, [⟨"ghost.stf", true, 0⟩]⟩ : WatchDir),
               ⟨true, [⟨"real.stf", true, 0⟩]⟩],
          d.dirExists = true ∧ e ∈ d.entries ∧ e.is_file = true ∧
            ∃ p ∈ ["anything"], (fun (_ _ : String) => true) p e.name = true) ∧
    (∀ (d : WatchDir) (rest : List WatchDir), d.dirExists = false →
      find_recent_files (fun _ _ => true) ["anything"] (d :: rest) none 0 =
        find_recent_files (fun _ _ => true) ["anything"] rest none 0) :=
  find_recent_files_no_lookback (fun _ _ => true) ["anything"]
    [⟨false, [⟨"ghost.stf", true, 0⟩]⟩, ⟨true, [⟨"real.stf", true, 0⟩]⟩]
    none 0 (Or.inl rfl)

/-- C3: extract_run_number tries its patterns in a fixed priority order
(qualifier forms run_ and run before the bare letter r), matches
case-insensitively, returns the first match's digits as an integer, and
returns the configured default when no pattern matches.  The last two
conjuncts exhibit case-insensitivity (RUN_777A) and priority (in
r1_run_22.stf the run_ pattern beats the earlier bare r match), and the
default is returned for every configured value. -/
theorem extract_run_number_spec :
    extract_run_number "run_12345_stf_001.stf" 9999 = 12345 ∧
    extract_run_number "r12345_x.stf" 9999 = 12345 ∧
    extract_run_number "nomatch.stf" 9999 = 9999 ∧
    extract_run_number "RUN_777A.stf" 9999 = 777 ∧
    extract_run_number "r1_run_22.stf" 9999 = 22 ∧
    ∀ d : Nat, extract_run_number "nomatch.stf" d = d := by
  have hnone : firstPatMatch runPats "nomatch.stf".toList = none := by decide
  exact ⟨by decide, by decide, by decide, by decide, by decide,
    fun d => by unfold extract_run_number; rw [hnone]⟩

/-- C5: calculate_checksum streams a readable file in 4096-byte chunks
and returns the MD5 hex digest of the entire content; on the 12 bytes of
"test content" it returns that byte string's MD5 hex digest; an
unreadable file yields the empty string through the except branch
instead of raising. -/
theorem calculate_checksum_spec :
    (∀ content : List Nat, calculate_checksum (some content) = md5Hex content) ∧
    calculate_checksum none = "" ∧
    calculate_checksum (some ("test content".toList.map Char.toNat)) =
      "9473fdd0d880a43c21b7778d34872157" := by
  refine ⟨fun content => ?_, rfl, ?_⟩
  · simp [calculate_checksum, chunks4096, chunksOfAux_flatten]
  · decide

/-- The for-loop over required_keys succeeds exactly when every required
key is present. -/
theorem checkRequired_ok_iff (c : Config) (ks : List String) :
    checkRequired c ks = Except.ok () ↔ ∀ k ∈ ks, hasKey c k = true := by
  induction ks with
  | nil => simp [checkRequired]
  | cons k ks ih =>
      by_cases h : hasKey c k
      · simp [checkRequired, h, ih]
      · simp [checkRequired, h]

/-- C8: validate_config returns without raising exactly when every
required configuration key is present and selection_fraction holds a
numeric value inside the closed interval from 0 to 1; a missing key, an
out-of-range fraction (or a non-numeric one, on which the Python chained
comparison also raises) makes it raise. -/
theorem validate_config_iff (c : Config) :
    validate_config c = Except.ok () ↔
      ((∀ k ∈ required_keys, hasKey c k = true) ∧
        ∃ q : ℚ, c.lookup "selection_fraction" = some (ConfigVal.num q) ∧
          0 ≤ q ∧ q ≤ 1) := by
  have hfrac : fractionOk c = true ↔
      ∃ q : ℚ, c.lookup "selection_fraction" = some (ConfigVal.num q) ∧
        0 ≤ q ∧ q ≤ 1 := by
    unfold fractionOk
    match hl : c.lookup "selection_fraction" with
    | none => simp
    | some (ConfigVal.num q) => simp
    | some ConfigVal.other => simp
  constructor
  · intro h
    unfold validate_config at h
    match hr : checkRequired c required_keys with
    | Except.error e => rw [hr] at h; exact absurd h (by simp)
    | Except.ok _ =>
        rw [hr] at h
        by_cases hf : fractionOk c
        · exact ⟨(checkRequired_ok_iff c required_keys).mp hr, hfrac.mp hf⟩
        · simp [hf] at h
  · intro ⟨hkeys, hq⟩
    unfold validate_config
    rw [(checkRequired_ok_iff c required_keys).mpr hkeys]
    simp [hfrac.mpr hq]

/-- C1: when the constructed URL already has a FileRecord, record_file
performs no insert: the database (runs and stf_files alike) is
unchanged and the first matching record is returned; the agents
revision likewise skips the insert and leaves the state unchanged (its
Python function returns None in every branch, so only the state is
observable there). -/
theorem record_file_dedup (fi : FileInfo) (cfg : RegConfig) (db : Db)
    (adb : Agents.Db) (r : StfRec)
    (h1 : (db.stf_files.filter
        (fun s => s.file_url == Rest.construct_file_url fi.abs_path cfg.base_url)).head? =
      some r)
    (h2 : (adb.stf_files.filter
        (fun s => s.file_url == Agents.construct_file_url fi.abs_path cfg.base_url)).isEmpty =
      false) :
    Rest.record_file fi cfg db = (db, r) ∧ Agents.record_file fi cfg adb = adb := by
  constructor
  · simp only [Rest.record_file, h1]
  · simp only [Agents.record_file, h2]
    simp

/-- Witness for C1: a database already holding the record for the url of
/tmp/run_1.stf under base_url "file://"; re-recording changes nothing
and returns that record. -/
theorem record_file_dedup_witness :
    ((Db.mk [⟨0, 1⟩] [⟨1, 0, "run_1.stf", "file://tmp/run_1.stf", 5, "", "REGISTERED"⟩] 2).stf_files.filter
        (fun s => s.file_url ==
          Rest.construct_file_url "/tmp/run_1.stf" "file://")).head? =
      some ⟨1, 0, "run_1.stf", "file://tmp/run_1.stf", 5, "", "REGISTERED"⟩ ∧
    ((Agents.Db.mk [⟨0, 1⟩] [⟨1, 0, "file://tmp/run_1.stf", 5, "", "registered"⟩] 2).stf_files.filter
        (fun s => s.file_url ==
          Agents.construct_file_url "/tmp/run_1.stf" "file://")).isEmpty = false ∧
    Rest.record_file ⟨"run_1.stf", "/tmp/run_1.stf", 5, none⟩ ⟨"file://", 1, false⟩
        (Db.mk [⟨0, 1⟩] [⟨1, 0, "run_1.stf", "file://tmp/run_1.stf", 5, "", "REGISTERED"⟩] 2) =
      (Db.mk [⟨0, 1⟩] [⟨1, 0, "run_1.stf", "file://tmp/run_1.stf", 5, "", "REGISTERED"⟩] 2,
        ⟨1, 0, "run_1.stf", "file://tmp/run_1.stf", 5, "", "REGISTERED"⟩) ∧
    Agents.record_file ⟨"run_1.stf", "/tmp/run_1.stf", 5, none⟩ ⟨"file://", 1, false⟩
        (Agents.Db.mk [⟨0, 1⟩] [⟨1, 0, "file://tmp/run_1.stf", 5, "", "registered"⟩] 2) =
      Agents.Db.mk [⟨0, 1⟩] [⟨1, 0, "file://tmp/run_1.stf", 5, "", "registered"⟩] 2 := by
  have h := record_file_dedup ⟨"run_1.stf", "/tmp/run_1.stf", 5, none⟩ ⟨"file://", 1, false⟩
    (Db.mk [⟨0, 1⟩] [⟨1, 0, "run_1.stf", "file://tmp/run_1.stf", 5, "", "REGISTERED"⟩] 2)
    (Agents.Db.mk [⟨0, 1⟩] [⟨1, 0, "file://tmp/run_1.stf", 5, "", "registered"⟩] 2)
    ⟨1, 0, "run_1.stf", "file://tmp/run_1.stf", 5, "", "REGISTERED"⟩
    (by decide) (by decide)
  exact ⟨by decide, by decide, h.1, h.2⟩

/-- C10 counterexample: at base_url "file:" (no trailing slash) and
resolved path /data/f.stf the revision in fastmon_utils.py yields
file://data/f.stf while the one in agents/fastmon_utils.py yields
file:/data/f.stf, so the two construct_file_url revisions are not
extensionally equal. -/
theorem construct_file_url_counterexample :
    Rest.construct_file_url "/data/f.stf" "file:" ≠
      Agents.construct_file_url "/data/f.stf" "file:" := by
  decide

theorem dropOneSlash_rev_slash (t : List Char) :
    dropOneSlash (('/' :: t).reverse) = t.reverse := by
  simp only [dropOneSlash, List.reverse_reverse]

theorem dropOneSlash_rev_other (c : Char) (t : List Char) (hc : ¬c = '/') :
    dropOneSlash ((c :: t).reverse) = (c :: t).reverse := by
  simp only [dropOneSlash, List.reverse_reverse]
  split
  · rename_i t2 heq
    injection heq with h1 h2
    exact absurd h1 hc
  · rfl

/-- C10 amended, list level: with the base url read from the back (r is
the reversed base url), the two constructions agree for every path
exactly when the base url ends in exactly two slashes. -/
theorem url_agree_aux (r p : List Char) :
    (r.dropWhile (fun c => c = '/')).reverse ++ '/' :: p =
      dropOneSlash r.reverse ++ p ↔
    (r.takeWhile (fun c => c = '/')).length = 2 := by
  match r with
  | [] =>
      simp only [List.dropWhile, List.takeWhile, List.reverse_nil, dropOneSlash,
        List.nil_append, List.length_nil]
      exact iff_of_false (List.cons_ne_self '/' p) (by omega)
  | c :: r2 =>
      by_cases hc : c = '/'
      · subst hc
        rw [dropOneSlash_rev_slash]
        simp only [List.dropWhile_cons, List.takeWhile_cons, decide_True, if_true,
          List.length_cons]
        match r2 with
        | [] =>
            simp only [List.dropWhile, List.takeWhile, List.reverse_nil,
              List.nil_append, List.length_nil]
            exact iff_of_false (List.cons_ne_self '/' p) (by omega)
        | c2 :: r3 =>
            by_cases hc2 : c2 = '/'
            · subst hc2
              simp only [List.dropWhile_cons, List.takeWhile_cons, decide_True,
                if_true, List.reverse_cons, List.append_assoc,
                List.singleton_append, List.length_cons]
              constructor
              · intro h
                have h2 : (List.dropWhile (fun c => decide (c = '/')) r3).reverse =
                    r3.reverse := List.append_cancel_right h
                have h3 : List.dropWhile (fun c => decide (c = '/')) r3 = r3 :=
                  List.reverse_injective h2
                have h4 : List.takeWhile (fun c => decide (c = '/')) r3 = [] :=
                  List.takeWhile_eq_nil_iff.mpr (List.dropWhile_eq_self_iff.mp h3)
                simp [h4]
              · intro h
                have h0 : (List.takeWhile (fun c => decide (c = '/')) r3).length = 0 := by
                  omega
                have h4 : List.dropWhile (fun c => decide (c = '/')) r3 = r3 :=
                  List.dropWhile_eq_self_iff.mpr
                    (List.takeWhile_eq_nil_iff.mp
                      (List.eq_nil_of_length_eq_zero h0))
                rw [h4]
            · simp only [List.dropWhile_cons, List.takeWhile_cons, hc2,
                decide_eq_true_eq, if_false, List.length_cons, List.length_nil]
              exact iff_of_false
                (fun h => List.cons_ne_self '/' p (List.append_cancel_left h))
                (by omega)
      · rw [dropOneSlash_rev_other c r2 hc]
        simp only [List.dropWhile_cons, List.takeWhile_cons, hc,
          decide_eq_true_eq, if_false, List.length_nil]
        exact iff_of_false
          (fun h => List.cons_ne_self '/' p (List.append_cancel_left h))
          (by omega)

/-- C10 amended: the two construct_file_url revisions agree on a path and
base URL exactly when the base URL ends in exactly two trailing slashes
(as the default "file://" does); for any other number of trailing
slashes they differ on every path. -/
theorem construct_file_url_agree_iff (abs_path base_url : String) :
    Rest.construct_file_url abs_path base_url =
      Agents.construct_file_url abs_path base_url ↔
    trailingSlashes base_url.toList = 2 := by
  have key : ∀ (b p : List Char),
      (rstripSlash b ++ '/' :: p = dropOneSlash b ++ p ↔ trailingSlashes b = 2) := by
    intro b p
    have hb := (List.reverse_reverse b).symm
    rw [hb]
    generalize b.reverse = r
    have h1 : rstripSlash r.reverse =
        (r.dropWhile (fun c => c = '/')).reverse := by
      simp [rstripSlash, List.reverse_reverse]
    have h2 : trailingSlashes r.reverse =
        (r.takeWhile (fun c => c = '/')).length := by
      simp [trailingSlashes, List.reverse_reverse]
    rw [h1, h2]
    exact url_agree_aux r p
  rw [Rest.construct_file_url, Agents.construct_file_url, String.ext_iff]
  exact key base_url.toList abs_path.toList

theorem pyInt_eq_floor (q : ℚ) (h : 0 ≤ q) : pyInt q = ⌊q⌋ := by
  rw [pyInt, Rat.floor_def]
  exact Int.tdiv_eq_ediv (Rat.num_nonneg.mpr h) (by positivity)

/-- C4 counterexample: with parent size 10, fraction 3/20, one child,
and a jitter draw of 1.1 (inside [0.8, 1.2]), the code computes
int(1.65) = 1 for size_bytes, while the round(1.65) of the claim is 2. -/
theorem simulate_tf_subsamples_counterexample :
    (simulate_tf_subsamples 10 "f" 0 1 (3 / 20) 1 (fun _ => 11 / 10)).map
        (fun m => m.file_size_bytes) = [1] ∧
    round ((10 : ℚ) * (3 / 20) * (11 / 10)) = 2 ∧
    (4 / 5 : ℚ) ≤ 11 / 10 ∧ (11 / 10 : ℚ) ≤ 6 / 5 := by
  have hval : ((10 : Nat) : ℚ) * (3 / 20) * (11 / 10) = 33 / 20 := by
    push_cast
    ring
  refine ⟨?_, ?_, by norm_num, by norm_num⟩
  · have hfloor : ⌊(33 / 20 : ℚ)⌋ = 1 := by
      rw [Int.floor_eq_iff] <;> norm_num
    simp only [simulate_tf_subsamples, List.range_succ, List.range_zero,
      List.nil_append, List.map_cons, List.map_nil]
    rw [pyInt_eq_floor _ (by rw [hval]; norm_num), hval, hfloor]
  · rw [show (10 : ℚ) * (3 / 20) * (11 / 10) = 33 / 20 by ring, round_eq,
      show (33 / 20 : ℚ) + 1 / 2 = 43 / 20 by ring]
    rw [Int.floor_eq_iff] <;> norm_num

/-- C4 amended: the subsampler produces exactly count ChildRecords whose
sequence numbers are the dense range starting at sequence_start, whose
filenames append the zero-padded sequence number to the parent stem,
and whose size_bytes is stf_size times size_fraction times the child's
jitter truncated by int() — the floor of that nonnegative product, not
its rounding as the claim stated; the truncated size still lies within
[160000, 240000] whenever the parent size times the fraction is 200000
(as with parent size 1,000,000 and fraction 0.2) and every jitter lies
in [0.8, 1.2]. -/
theorem simulate_tf_subsamples_spec (stf_size : Nat) (base_filename : String)
    (stf_parent tf_files_per_stf : Nat) (tf_size_fraction : ℚ)
    (tf_sequence_start : Nat) (jitter : Nat → ℚ)
    (hfrac : 0 ≤ tf_size_fraction)
    (hj : ∀ i, 4 / 5 ≤ jitter i ∧ jitter i ≤ 6 / 5) :
    (simulate_tf_subsamples stf_size base_filename stf_parent tf_files_per_stf
        tf_size_fraction tf_sequence_start jitter).length = tf_files_per_stf ∧
    (∀ i, i < tf_files_per_stf →
      (simulate_tf_subsamples stf_size base_filename stf_parent tf_files_per_stf
          tf_size_fraction tf_sequence_start jitter).get? i =
        some ⟨base_filename ++ "_tf_" ++ pad3 (tf_sequence_start + i) ++ ".tf",
          ⌊(stf_size : ℚ) * tf_size_fraction * jitter i⌋,
          tf_sequence_start + i, stf_parent⟩) ∧
    ((stf_size : ℚ) * tf_size_fraction = 200000 →
      ∀ m ∈ simulate_tf_subsamples stf_size base_filename stf_parent
          tf_files_per_stf tf_size_fraction tf_sequence_start jitter,
        160000 ≤ m.file_size_bytes ∧ m.file_size_bytes ≤ 240000) := by
  have hnn : ∀ i, (0 : ℚ) ≤ (stf_size : ℚ) * tf_size_fraction * jitter i := by
    intro i
    have hji : (0 : ℚ) ≤ jitter i := le_trans (by norm_num) (hj i).1
    have : (0 : ℚ) ≤ (stf_size : ℚ) * tf_size_fraction :=
      mul_nonneg (by positivity) hfrac
    exact mul_nonneg this hji
  refine ⟨?_, fun i hi => ?_, fun h200 m hm => ?_⟩
  · simp [simulate_tf_subsamples]
  · rw [List.get?_eq_getElem?, simulate_tf_subsamples, List.getElem?_map,
      List.getElem?_range hi]
    simp only [Option.map_some']
    rw [pyInt_eq_floor _ (hnn i)]
  · simp only [simulate_tf_subsamples, List.mem_map, List.mem_range] at hm
    obtain ⟨i, hi, rfl⟩ := hm
    simp only
    rw [pyInt_eq_floor _ (hnn i), h200]
    constructor
    · rw [Int.le_floor]
      calc (160000 : ℚ) = 200000 * (4 / 5) := by norm_num
        _ ≤ 200000 * jitter i :=
            mul_le_mul_of_nonneg_left (hj i).1 (by norm_num)
    · have : ⌊(200000 : ℚ) * jitter i⌋ ≤ ⌊(240000 : ℚ)⌋ := by
        apply Int.floor_le_floor
        calc (200000 : ℚ) * jitter i ≤ 200000 * (6 / 5) :=
              mul_le_mul_of_nonneg_left (hj i).2 (by norm_num)
          _ = 240000 := by norm_num
      simpa using this

/-- Witness for C4: parent size 1,000,000, three children, fraction 0.2,
all jitters equal to 1. -/
theorem simulate_tf_subsamples_spec_witness :
    (0 : ℚ) ≤ 1 / 5 ∧
    (∀ i : Nat, 4 / 5 ≤ ((fun _ => (1 : ℚ)) i) ∧ ((fun _ => (1 : ℚ)) i) ≤ 6 / 5) ∧
    (simulate_tf_subsamples 1000000 "run_7" 42 3 (1 / 5) 1 (fun _ => 1)).length = 3 ∧
    ((1000000 : ℚ) * (1 / 5) = 200000 →
      ∀ m ∈ simulate_tf_subsamples 1000000 "run_7" 42 3 (1 / 5) 1 (fun _ => 1),
        160000 ≤ m.file_size_bytes ∧ m.file_size_bytes ≤ 240000) := by
  have h := simulate_tf_subsamples_spec 1000000 "run_7" 42 3 (1 / 5) 1 (fun _ => 1)
    (by norm_num) (fun i => ⟨by norm_num, by norm_num⟩)
  exact ⟨by norm_num, fun i => ⟨by norm_num, by norm_num⟩, h.1, h.2.2⟩

theorem process_tf_aux (post : TfMeta → Except String TfFile)
    (publish : TfFile → Except String Unit) (metas : List TfMeta)
    (acc1 : List (Option TfFile)) (acc2 : List DispatchRecord) :
    metas.foldl
      (fun acc m =>
        match record_tf_file post m with
        | some tf => (acc.1 ++ [some tf], acc.2 ++ [send_tf_file_notification publish tf])
        | none => (acc.1 ++ [none], acc.2))
      (acc1, acc2) =
    (acc1 ++ metas.map (record_tf_file post),
      acc2 ++ (metas.filterMap (record_tf_file post)).map
        (send_tf_file_notification publish)) := by
  induction metas generalizing acc1 acc2 with
  | nil => simp
  | cons m ms ih =>
      simp only [List.foldl_cons, List.map_cons, List.filterMap_cons]
      match hm : record_tf_file post m with
      | some tf => simp [ih]
      | none => simp [ih]

/-- C6: in the per-child loop, the registered list is the pointwise image
of the subsamples under the (total) record step, and the dispatch
records are the pointwise image of the successfully recorded children
under the (total) notification step, so one child's publish failure
does not change — let alone prevent — the DispatchRecord of any sibling,
the number of dispatch records equals the number of recorded children
whatever the publish outcomes, and no publish failure raises out of the
loop (both steps are total functions of their own oracle result only). -/
theorem publish_failure_isolated (post : TfMeta → Except String TfFile)
    (publish : TfFile → Except String Unit) (metas : List TfMeta) :
    (process_tf_subsamples post publish metas).1 =
      metas.map (record_tf_file post) ∧
    (process_tf_subsamples post publish metas).2 =
      (metas.filterMap (record_tf_file post)).map
        (send_tf_file_notification publish) ∧
    (process_tf_subsamples post publish metas).2.length =
      (metas.filterMap (record_tf_file post)).length := by
  have h2 : process_tf_subsamples post publish metas =
      (metas.map (record_tf_file post),
        (metas.filterMap (record_tf_file post)).map
          (send_tf_file_notification publish)) := by
    rw [process_tf_subsamples, process_tf_aux]
    simp
  refine ⟨by rw [h2], by rw [h2], by rw [h2]; simp⟩

/-- C7 counterexample: in the main.py emulation cycle with two files,
where registering the first file raises and registering the second
would succeed, nothing at all is registered: the error for the first
file prevents the remaining file of the cycle from being processed,
refuting per-file isolation for that revision. -/
theorem cycle_isolation_counterexample :
    (mainCycleLoop
        (fun (f : Nat) (db : Nat) =>
          if f = 1 then Except.error (db, "record failed")
          else Except.ok (db + 1, f)) 0 [1, 2]).2.2 = [] ∧
    (fun (f : Nat) (db : Nat) =>
        if f = 1 then Except.error (db, "record failed")
        else Except.ok (db + 1, f)) 2 0 = Except.ok (1, 2) :=
  ⟨rfl, rfl⟩

/-- C7 amended: per-file error isolation holds in the agents revision,
whose _record_file catches its own errors so _process_files always
continues with the next file whatever a file's outcome flag; in the
main.py emulation cycle per-child errors are isolated (the child steps
are total, claim C6) but a registration error abandons the remaining
files of that cycle, and it is caught only at the cycle boundary, where
it becomes an ERROR agent status instead of propagating out of the
cycle call. -/
theorem cycle_error_isolation {φ σ φ2 σ2 : Type}
    (act : φ → σ → σ × Bool)
    (reg : φ2 → σ2 → Except (σ2 × String) (σ2 × Nat)) :
    (∀ (db : σ) (f : φ) (fs : List φ),
      Agents.process_files act db (f :: fs) =
        Agents.process_files act (act f db).1 fs) ∧
    (∀ (db db1 : σ2) (f : φ2) (fs : List φ2) (e : String),
      reg f db = Except.error (db1, e) →
        mainCycleLoop reg db (f :: fs) = (db1, some e, [])) ∧
    (∀ (db : σ2) (files : List φ2),
      (emulate_cycle reg db files).2.1 =
        if (mainCycleLoop reg db files).2.1.isSome then "ERROR" else "OK") := by
  refine ⟨fun db f fs => rfl, fun db db1 f fs e h => ?_, fun db files => ?_⟩
  · simp only [mainCycleLoop, h]
  · rw [emulate_cycle]
    match heq : (mainCycleLoop reg db files).2.1 with
    | some e => simp [heq]
    | none => simp [heq]

/-- Witness for C7: the agents loop steps through a failing first file,
and the main.py loop with a failing first registration stops with an
ERROR status and no registrations. -/
theorem cycle_error_isolation_witness :
    Agents.process_files (fun (f : Nat) (db : Nat) => (db + f, decide (f = 1)))
        0 (1 :: [2]) =
      Agents.process_files (fun (f : Nat) (db : Nat) => (db + f, decide (f = 1)))
        ((fun (f : Nat) (db : Nat) => (db + f, decide (f = 1))) 1 0).1 [2] ∧
    mainCycleLoop
      (fun (f : Nat) (db : Nat) =>
        if f = 1 then Except.error (db, "boom") else Except.ok (db + 1, f))
      0 (1 :: [2]) = (0, some "boom", []) ∧
    (emulate_cycle
        (fun (f : Nat) (db : Nat) =>
          if f = 1 then Except.error (db, "boom") else Except.ok (db + 1, f))
        0 [1, 2]).2.1 =
      if (mainCycleLoop
            (fun (f : Nat) (db : Nat) =>
              if f = 1 then Except.error (db, "boom") else Except.ok (db + 1, f))
            0 [1, 2]).2.1.isSome then "ERROR" else "OK" := by
  have h := cycle_error_isolation
    (fun (f : Nat) (db : Nat) => (db + f, decide (f = 1)))
    (fun (f : Nat) (db : Nat) =>
      if f = 1 then Except.error (db, "boom") else Except.ok (db + 1, f))
  exact ⟨h.1 0 1 [2], h.2.1 0 0 1 [2] "boom" rfl, h.2.2 0 [1, 2]⟩

end FastMon
